import Mathlib

/-!
# Verification of the vault-token token-lifecycle library

Shallow embedding of the `vaulttoken` Go package: the GCP auth token state
machine (`gcpAuthToken`: getToken / isExpired / isRevoked / refresh / revoke),
the signed-JWT creation with bounded retry (`createSignedJwtWithRetry` /
`createSignedJwt`), and the client-connection facade (`NewVaultClient` /
`GetApiInterface`).

External effects (network calls, the clock) are modelled by explicit
environment records passed into each operation; each operation returns its
result, the updated state, and the list of network calls it performed.
Time is modelled as unix-time in seconds (an `Int`).
-/

namespace VaultToken

/-- Errors: `base` models an error built with `fmt.Errorf`/`errors.New`,
`wrapped msg cause` models `errors.Wrap(cause, msg)`. -/
inductive VaultErr where
  | base (msg : String)
  | wrapped (msg : String) (cause : VaultErr)
  deriving DecidableEq, Repr

/-- A Vault secret as returned by login / renew: the client token and the
TTL the call `resp.TokenTTL()` would parse out of it (`none` when that
parse fails). -/
structure Secret where
  clientToken : String
  ttlSecs : Option Int
  deriving DecidableEq, Repr

/-- `resp.TokenTTL()` — parses the TTL from the secret, may fail. -/
def Secret.tokenTTL (s : Secret) : Except VaultErr Int :=
  match s.ttlSecs with
  | some t => .ok t
  | none => .error (.base "ttl parse failure")

/-- `gcpAuthConfig`: the role and the fixed auth mount path. -/
structure GcpAuthConfig where
  role : String
  authPath : String
  deriving DecidableEq, Repr

/-- `gcpAuth.getConfig`: builds the config with the fixed mount path
`auth/gcp` (never fails). -/
def getConfig (vaultRole : String) : GcpAuthConfig :=
  { role := vaultRole, authPath := "auth/gcp" }

/-- The mutable state of `gcpAuthToken`: held token (nil ⇔ `none`), the
absolute expiration time, and the auth config. The `*vaultapi.Client`
field is modelled through the environments below. -/
structure GcpAuthToken where
  token : Option Secret
  expiration : Int
  cfg : GcpAuthConfig
  deriving DecidableEq, Repr

/-- `newGcpAuthToken`: fresh state, no token held, zero-value expiration. -/
def newGcpAuthToken (cfg : GcpAuthConfig) : GcpAuthToken :=
  { token := none, expiration := 0, cfg := cfg }

/-- The network calls an operation can perform. `sign` stands for the
whole signed-JWT pipeline (`createSignedJwtWithRetry`), `login` for the
`Logical().Write(authPath + "/login", ...)` request, and the rest for the
token self-operations. -/
inductive NetEffect where
  | sign
  | login
  | lookupSelf
  | renewSelf
  | revokeSelf
  deriving DecidableEq, Repr

/-- The body written to the login endpoint: `{"role": ..., "jwt": ...}`. -/
structure LoginPayload where
  role : String
  jwt : String
  deriving DecidableEq, Repr

/-- Environment for `getToken`: the outcome of the signing pipeline, the
server's response to a login write (as a function of path and payload),
and the value `time.Now()` yields at the capture point just before the
login request. -/
structure GetTokenEnv where
  signResult : Except VaultErr String
  login : String → LoginPayload → Except VaultErr Secret
  now : Int

/-- `gcpAuthToken.getToken`: when no token is held, sign a JWT (with
retry), post `{role, jwt}` to `authPath + "/login"`, capture the pre-call
timestamp, set `expiration := now + ttl` and store the token; when a
token is already held, return it with no network call. Every failure
path returns before any state is mutated. -/
def getToken (env : GetTokenEnv) (gat : GcpAuthToken) :
    Except VaultErr Secret × GcpAuthToken × List NetEffect :=
  match gat.token with
  | some tok => (.ok tok, gat, [])
  | none =>
    match env.signResult with
    | .error e =>
        (.error (.wrapped "can't get signed jwt token for auth" e), gat, [.sign])
    | .ok signedJwt =>
      match env.login (gat.cfg.authPath ++ "/login")
          { role := gat.cfg.role, jwt := signedJwt } with
      | .error e =>
          (.error (.wrapped "vault login request error" e), gat, [.sign, .login])
      | .ok resp =>
        match resp.tokenTTL with
        | .error e =>
            (.error (.wrapped "vault token ttl error" e), gat, [.sign, .login])
        | .ok ttl =>
            (.ok resp,
             { gat with token := some resp, expiration := env.now + ttl },
             [.sign, .login])

/-- `gcpAuthToken.isExpired`: a nil token is expired; otherwise compare
the clock to the stored expiration (`time.Now().After(expiration)`, a
strict comparison). Purely local: no environment, no network calls, and
the Go error return is always nil. -/
def isExpired (now : Int) (gat : GcpAuthToken) : Bool :=
  match gat.token with
  | none => true
  | some _ => decide (now > gat.expiration)

/-- Environment for `isRevoked`: whether cloning the api client succeeds,
and the outcome of `LookupSelfWithContext` as a function of the token the
cloned client was given. -/
structure IsRevokedEnv where
  cloneResult : Except VaultErr Unit
  lookup : String → Except VaultErr Unit

/-- `gcpAuthToken.isRevoked`: nil token ⇒ revoked with no network call;
otherwise clone the client, authenticate it with the held token, and run
a self-lookup. The source assigns `revoked = (testErr == nil)`: a
lookup that returns no error yields `revoked = true`. -/
def isRevoked (env : IsRevokedEnv) (gat : GcpAuthToken) :
    Except VaultErr Bool × List NetEffect :=
  match gat.token with
  | none => (.ok true, [])
  | some tok =>
    match env.cloneResult with
    | .error e =>
        (.error (.wrapped "can't clone vault api client to check revocation" e), [])
    | .ok _ =>
      match env.lookup tok.clientToken with
      | .ok _ => (.ok true, [.lookupSelf])
      | .error _ => (.ok false, [.lookupSelf])

/-- Environment for `refresh`: the server's response to
`RenewSelfWithContext` as a function of the suggested TTL, and the two
clock readings around that network call — `timePre` is what `time.Now()`
would return immediately before the renew request, `timePost` is what
the single `time.Now()` call on the expiration-assignment line (after
the renew request returned) yields. -/
structure RefreshEnv where
  renew : Int → Except VaultErr Secret
  timePre : Int
  timePost : Int

/-- `gcpAuthToken.refresh`: with no token held, fail locally with
"can't refresh nil token" and no network call; otherwise renew-self with
the suggested TTL and, on success, set
`expiration := time.Now().Add(ttl)` — the clock is read after the renew
call returns. The held token value itself is not replaced. -/
def refresh (env : RefreshEnv) (nextTtlInSeconds : Int) (gat : GcpAuthToken) :
    Option VaultErr × GcpAuthToken × List NetEffect :=
  match gat.token with
  | none => (some (.base "can't refresh nil token"), gat, [])
  | some _ =>
    match env.renew nextTtlInSeconds with
    | .error e =>
        (some (.wrapped "can't refresh vault api token" e), gat, [.renewSelf])
    | .ok token =>
      match token.tokenTTL with
      | .error e =>
          (some (.wrapped "vault token refresh ttl error" e), gat, [.renewSelf])
      | .ok ttl =>
          (none, { gat with expiration := env.timePost + ttl }, [.renewSelf])

/-- `gcpAuthToken.revoke`: with no token held it is a silent no-op
returning nil; otherwise `RevokeSelfWithContext` runs, and only when it
succeeds is the token cleared — on failure the token is retained. -/
def revoke (revokeResult : Except VaultErr Unit) (gat : GcpAuthToken) :
    Option VaultErr × GcpAuthToken × List NetEffect :=
  match gat.token with
  | none => (none, gat, [])
  | some _ =>
    match revokeResult with
    | .error e => (some (.wrapped "revoke vault token error" e), gat, [.revokeSelf])
    | .ok _ => (none, { gat with token := none }, [.revokeSelf])

/-! ## Signed-JWT creation with retry (`vault-auth-gcp-jwt.go`) -/

/-- `backoff.Retry` with `backoff.WithMaxRetries(b, maxRetries)`: run the
operation; on failure retry while retries remain, so at most
`maxRetries + 1` total attempts. The operation is indexed by the attempt
number (0-based); the second component of the result is the number of
attempts actually made. The backoff sleeps have no observable effect in
this model. -/
def backoffRetry (op : Nat → Except VaultErr String) (start : Nat)
    (remaining : Nat) : Except VaultErr String × Nat :=
  match op start with
  | .ok s => (.ok s, start + 1)
  | .error e =>
    match remaining with
    | 0 => (.error e, start + 1)
    | r + 1 => backoffRetry op (start + 1) r
termination_by remaining

/-- `gcpAuthJwt.createSignedJwtWithRetry`: retry `createSignedJwt` with an
exponential backoff capped at `maxRetries` retries; on exhaustion wrap the
last error with `unable to sign JWT after %d retries`. The per-attempt
operation is a parameter (each attempt reruns `createSignedJwt` afresh). -/
def createSignedJwtWithRetry (op : Nat → Except VaultErr String)
    (maxRetries : Nat) : Except VaultErr String × Nat :=
  match backoffRetry op 0 maxRetries with
  | (.ok s, n) => (.ok s, n)
  | (.error e, n) =>
      (.error (.wrapped
        ("unable to sign JWT after " ++ toString maxRetries ++ " retries") e), n)

/-- `cJwtTokenTimeoutMins = 1`: the claim expiry offset, in minutes. -/
def cJwtTokenTimeoutMins : Int := 1

/-- The JWT claim map `{"aud": "vault/"+role, "sub": saEmail, "exp": ...}`
built by `createSignedJwt`. Strings are carried as `List Char`. -/
structure JwtClaim where
  aud : List Char
  sub : List Char
  exp : Int
  deriving DecidableEq, Repr

/-- Claim construction: audience `"vault/" + role`, subject the resolved
service-account email, expiry `time.Now().Add(1 minute).Unix()`, i.e. the
attempt's own timestamp plus 60 seconds. -/
def buildClaim (role saEmail : List Char) (now : Int) : JwtClaim :=
  { aud := "vault/".data ++ role
    sub := saEmail
    exp := now + cJwtTokenTimeoutMins * 60 }

/-- Lower-case hex digit, as `encoding/json` emits in `\u00XX` escapes. -/
def hexDigitChar (n : Nat) : Char :=
  if n < 10 then Char.ofNat (48 + n) else Char.ofNat (87 + n)

/-- Per-character escaping of Go's `encoding/json` string encoder (HTML
escaping on, its default): `"` and `\` get a backslash, `\n`/`\r`/`\t`
their short forms, other control characters `\u00XX`, `<` `>` `&` and
U+2028/U+2029 their `\uXXXX` forms, everything else is copied. -/
def escOne (c : Char) : List Char :=
  if c = '"' then ['\\', '"']
  else if c = '\\' then ['\\', '\\']
  else if c = '\n' then ['\\', 'n']
  else if c = '\r' then ['\\', 'r']
  else if c = '\t' then ['\\', 't']
  else if c = '<' then "\\u003c".data
  else if c = '>' then "\\u003e".data
  else if c = '&' then "\\u0026".data
  else if c.toNat < 0x20 then
    "\\u00".data ++ [hexDigitChar (c.toNat / 16), hexDigitChar (c.toNat % 16)]
  else if c.toNat = 0x2028 then "\\u2028".data
  else if c.toNat = 0x2029 then "\\u2029".data
  else [c]

/-- Escape every character of a string body. -/
def escapeChars (s : List Char) : List Char := s.flatMap escOne

/-- `json.Marshal` of a Go string: quoted, body escaped. -/
def jsonStr (s : List Char) : List Char := '"' :: (escapeChars s ++ ['"'])

/-- Decimal digits of a natural number, most significant first
(accumulator form). -/
def natDecAux (n : Nat) (acc : List Char) : List Char :=
  let acc' := Char.ofNat (48 + n % 10) :: acc
  if h : n < 10 then acc'
  else natDecAux (n / 10) acc'
termination_by n
decreasing_by exact Nat.div_lt_self (by omega) (by omega)

/-- `json.Marshal` of an `int64`: standard decimal notation. -/
def intDecimalChars (i : Int) : List Char :=
  if i < 0 then '-' :: natDecAux (-i).toNat [] else natDecAux i.toNat []

/-- `json.Marshal` of the claim map: `map[string]any` keys are emitted in
sorted order — `aud`, `exp`, `sub`. -/
def claimChars (c : JwtClaim) : List Char :=
  "\x7b\"aud\":".data ++ jsonStr c.aud ++ ",\"exp\":".data
    ++ intDecimalChars c.exp ++ ",\"sub\":".data ++ jsonStr c.sub ++ "\x7d".data

/-- The request body of the signing POST:
`{"payload":` + `json.Marshal(string(claim))` + `}` — the claim JSON is
JSON-encoded a second time, as a string. -/
def reqBodyChars (c : JwtClaim) : List Char :=
  "\x7b\"payload\":".data ++ jsonStr (claimChars c) ++ "\x7d".data

/-- Environment for one `createSignedJwt` attempt: the outcome of
`getSaInfo` (the resolved identity principal; the oauth2 token source is
implicit in `signer`), and the signing endpoint's reply to the POSTed
request body (response parsing folded into the `Except`). -/
structure SignEnv where
  saInfo : Except VaultErr (List Char)
  signer : List Char → Except VaultErr String

/-- One `gcpAuthJwt.createSignedJwt` attempt at its own timestamp `t`:
resolve the identity, build the claim at `t`, double-encode it into the
request body, and POST it to the signing endpoint. -/
def createSignedJwt (env : SignEnv) (role : List Char) (t : Int) :
    Except VaultErr String :=
  match env.saInfo with
  | .error e => .error (.wrapped "unable to get service account from environment" e)
  | .ok saEmail => env.signer (reqBodyChars (buildClaim role saEmail t))

/-! ## The client-connection facade (`NewVaultClient` / `GetApiInterface`) -/

/-- `VaultClientConnection`: the shared `*vaultapi.Client` is reduced to
the token currently set on it; `auth` is the GCP auth config when dynamic
mode is active (`vcc.auth == nil` ⇔ `none`; `getConfig` never fails, so
`auth` and `authCfg` are set together in the source). There is no field
holding a token manager. -/
structure VaultClientConnection where
  vcToken : Option String
  auth : Option GcpAuthConfig
  deriving DecidableEq, Repr

/-- `NewVaultClient` (client construction assumed to succeed): a nonempty
`vaultToken` is set on the client and the function returns with no auth
configured (static mode); otherwise GCP auth is configured for the role
with mount path `auth/gcp` and no token is set yet. -/
def NewVaultClient (vaultToken vaultRole : String) : VaultClientConnection :=
  if vaultToken ≠ "" then { vcToken := some vaultToken, auth := none }
  else { vcToken := none, auth := some (getConfig vaultRole) }

/-- `VaultClientConnection.GetApiInterface`: static mode returns the
client as-is with no network call. Dynamic mode builds a **fresh** token
provider with `auth.newVaultToken` on every call (the provider is a local
variable, not stored on `vcc`), asks it for a token, and sets the token
on the client. -/
def GetApiInterface (env : GetTokenEnv) (vcc : VaultClientConnection) :
    Except VaultErr Unit × VaultClientConnection × List NetEffect :=
  match vcc.auth with
  | none => (.ok (), vcc, [])
  | some cfg =>
    let tokenProvider := newGcpAuthToken cfg
    match getToken env tokenProvider with
    | (.error e, _, effs) => (.error e, vcc, effs)
    | (.ok tok, _, effs) =>
        (.ok (), { vcc with vcToken := some tok.clientToken }, effs)

/-- Number of login network calls in an effect trace. -/
def countLogins (effs : List NetEffect) : Nat := effs.count NetEffect.login

/-! ## A decoder for the signing request body

The spec's round-trip property says a reader of the POSTed body can
decode the payload back into the claim. `decodeReqBody` strips the
`{"payload":` wrapper, undoes the outer JSON string encoding, and
extracts the `aud` and `sub` fields of the inner claim JSON. -/

/-- Characters the JSON encoder copies verbatim: printable, not a quote,
backslash, or one of the HTML-escaped characters. -/
def PlainCh (c : Char) : Prop :=
  0x20 ≤ c.toNat ∧ c ≠ '"' ∧ c ≠ '\\' ∧ c ≠ '<' ∧ c ≠ '>' ∧ c ≠ '&'
    ∧ c.toNat ≠ 0x2028 ∧ c.toNat ≠ 0x2029

instance : DecidablePred PlainCh := fun c => by
  unfold PlainCh; infer_instance

/-- Consume an expected literal from the front of the input. -/
def dropLit : List Char → List Char → Option (List Char)
  | [], s => some s
  | _ :: _, [] => none
  | p :: ps, c :: cs => if c = p then dropLit ps cs else none

/-- Undo JSON string escaping up to the closing quote; returns the
decoded body and the rest of the input after the closing quote. Handles
the backslash escapes for quote and backslash. -/
def unescapeQuoted : List Char → Option (List Char × List Char)
  | [] => none
  | c :: cs =>
    if c = '"' then some ([], cs)
    else if c = '\\' then
      match cs with
      | [] => none
      | d :: ds =>
        if d = '"' ∨ d = '\\' then
          match unescapeQuoted ds with
          | some (body, rest) => some (d :: body, rest)
          | none => none
        else none
    else
      match unescapeQuoted cs with
      | some (body, rest) => some (c :: body, rest)
      | none => none
termination_by s => s.length
decreasing_by all_goals (simp_all; try omega)

/-- Parse a JSON string: an opening quote, then the escaped body. -/
def parseJsonStr (s : List Char) : Option (List Char × List Char) :=
  match s with
  | '"' :: rest => unescapeQuoted rest
  | _ => none

/-- Skip input up to and including the next comma. -/
def dropUntilComma : List Char → Option (List Char)
  | [] => none
  | c :: cs => if c = ',' then some cs else dropUntilComma cs

/-- Extract `(aud, sub)` from the claim JSON
`{"aud":<string>,"exp":<number>,"sub":<string>}`. -/
def decodeClaim (s : List Char) : Option (List Char × List Char) := do
  let s1 ← dropLit "\x7b\"aud\":".data s
  let (aud, s2) ← parseJsonStr s1
  let s3 ← dropLit ",\"exp\":".data s2
  let s4 ← dropUntilComma s3
  let s5 ← dropLit "\"sub\":".data s4
  let (sub, s6) ← parseJsonStr s5
  let s7 ← dropLit "\x7d".data s6
  if s7.isEmpty then some (aud, sub) else none

/-- Decode the signing request body: strip `{"payload":`, undo the outer
string encoding, strip the closing `}`, and decode the inner claim. -/
def decodeReqBody (s : List Char) : Option (List Char × List Char) := do
  let s1 ← dropLit "\x7b\"payload\":".data s
  let (inner, s2) ← parseJsonStr s1
  let s3 ← dropLit "\x7d".data s2
  if s3.isEmpty then decodeClaim inner else none

/-! ## Helper lemmas -/

/-- A plain character is copied verbatim by the JSON escaper. -/
theorem escOne_plain {c : Char} (h : PlainCh c) : escOne c = [c] := by
  obtain ⟨hge, hq, hb, hlt, hgt, ha, h28, h29⟩ := h
  have hn : c ≠ '\n' := by rintro rfl; exact absurd hge (by decide)
  have hr : c ≠ '\r' := by rintro rfl; exact absurd hge (by decide)
  have ht : c ≠ '\t' := by rintro rfl; exact absurd hge (by decide)
  have hc : ¬ c.toNat < 0x20 := by omega
  simp [escOne, hq, hb, hn, hr, ht, hlt, hgt, ha, hc, h28, h29]

/-- Escaping a string of plain characters is the identity. -/
theorem escapeChars_plain {s : List Char} (h : ∀ c ∈ s, PlainCh c) :
    escapeChars s = s := by
  induction s with
  | nil => rfl
  | cons c s ih =>
    have h1 : PlainCh c := h c (by simp)
    have h2 : ∀ d ∈ s, PlainCh d := fun d hd => h d (by simp [hd])
    simp [escapeChars, escOne_plain h1] at *
    exact ih h2

/-- Consuming a literal from the front of a concatenation. -/
theorem dropLit_append (p s : List Char) : dropLit p (p ++ s) = some s := by
  induction p with
  | nil => simp [dropLit]
  | cons c p ih => simp [dropLit, ih]

/-- Skipping to a comma over comma-free content. -/
theorem dropUntilComma_skip (d rest : List Char) (hd : ∀ c ∈ d, c ≠ ',') :
    dropUntilComma (d ++ ',' :: rest) = some rest := by
  induction d with
  | nil => simp [dropUntilComma]
  | cons c d ih =>
    have h1 : c ≠ ',' := hd c (by simp)
    have h2 : ∀ x ∈ d, x ≠ ',' := fun x hx => hd x (by simp [hx])
    simp [dropUntilComma, h1, ih h2]

/-- Unescaping inverts escaping: for a body of plain-or-quote characters
followed by the closing quote, `unescapeQuoted` recovers the body. -/
theorem unescapeQuoted_esc (l rest : List Char)
    (hl : ∀ c ∈ l, PlainCh c ∨ c = '"') :
    unescapeQuoted (escapeChars l ++ '"' :: rest) = some (l, rest) := by
  induction l with
  | nil =>
    rw [show escapeChars [] ++ '"' :: rest = '"' :: rest by simp [escapeChars]]
    rw [unescapeQuoted.eq_def]
    simp
  | cons c l ih =>
    have hc := hl c (by simp)
    have hl' : ∀ d ∈ l, PlainCh d ∨ d = '"' := fun d hd => hl d (by simp [hd])
    have ihl := ih hl'
    rcases hc with hp | rfl
    · have he : escOne c = [c] := escOne_plain hp
      have h1 : c ≠ '"' := hp.2.1
      have h2 : c ≠ '\\' := hp.2.2.1
      simp only [escapeChars, List.flatMap_cons, he, List.singleton_append,
        List.cons_append] at *
      rw [unescapeQuoted.eq_def]
      simp [h1, h2, ihl]
    · have he : escOne '"' = ['\\', '"'] := by decide
      simp only [escapeChars, List.flatMap_cons, he, List.cons_append,
        List.append_assoc] at *
      rw [unescapeQuoted.eq_def]
      simp [ihl]

/-- Parsing a JSON string literal at the head of the input. -/
theorem parseJsonStr_jsonStr (x rest : List Char)
    (hx : ∀ c ∈ x, PlainCh c ∨ c = '"') :
    parseJsonStr (jsonStr x ++ rest) = some (x, rest) := by
  have hshape : jsonStr x ++ rest = '"' :: (escapeChars x ++ '"' :: rest) := by
    simp [jsonStr]
  rw [hshape]
  simp only [parseJsonStr]
  exact unescapeQuoted_esc x rest hx

/-- A decimal digit character. -/
def DigitCh (c : Char) : Prop := 48 ≤ c.toNat ∧ c.toNat ≤ 57

instance : DecidablePred DigitCh := fun c => by
  unfold DigitCh; infer_instance

/-- All characters produced by `natDecAux` are digits. -/
theorem natDecAux_digits (n : Nat) :
    ∀ (acc : List Char), (∀ c ∈ acc, DigitCh c) →
      ∀ c ∈ natDecAux n acc, DigitCh c := by
  induction n using Nat.strong_induction_on with
  | _ n ih =>
    intro acc hacc c hc
    have hd : DigitCh (Char.ofNat (48 + n % 10)) := by
      have h10 : n % 10 < 10 := Nat.mod_lt _ (by omega)
      revert h10
      generalize n % 10 = k
      intro h10
      interval_cases k <;> decide
    rw [natDecAux] at hc
    by_cases hn : n < 10
    · simp only [hn, if_pos] at hc
      rcases List.mem_cons.mp hc with rfl | hmem
      · exact hd
      · exact hacc c hmem
    · simp only [hn, if_neg, not_false_iff] at hc
      exact ih (n / 10) (Nat.div_lt_self (by omega) (by omega))
        (Char.ofNat (48 + n % 10) :: acc)
        (fun d hdm => by
          rcases List.mem_cons.mp hdm with rfl | hmem
          · exact hd
          · exact hacc d hmem) c hc

/-- Characters of the decimal rendering of an integer: digits or `-`. -/
theorem intDecimalChars_num (i : Int) :
    ∀ c ∈ intDecimalChars i, DigitCh c ∨ c = '-' := by
  intro c hc
  unfold intDecimalChars at hc
  by_cases hi : i < 0
  · simp only [hi, if_pos] at hc
    rcases List.mem_cons.mp hc with rfl | hmem
    · right; rfl
    · left; exact natDecAux_digits _ [] (by simp) c hmem
  · simp only [hi, if_neg, not_false_iff] at hc
    left; exact natDecAux_digits _ [] (by simp) c hc

/-- Digit and minus characters are plain and are not commas. -/
theorem numCh_plain {c : Char} (h : DigitCh c ∨ c = '-') :
    PlainCh c ∧ c ≠ ',' := by
  rcases h with ⟨h1, h2⟩ | rfl
  · refine ⟨⟨by omega, ?_, ?_, ?_, ?_, ?_, by omega, by omega⟩, ?_⟩ <;>
      (rintro rfl;
       first
       | exact absurd h1 (by decide)
       | exact absurd h2 (by decide))
  · exact ⟨by decide, by decide⟩

/-- Consuming a literal that is the whole remaining input. -/
theorem dropLit_self (p : List Char) : dropLit p p = some [] := by
  simpa using dropLit_append p []

/-- Every character of the claim JSON is plain or a quote, provided the
audience and subject are plain. -/
theorem claimChars_plainq (cl : JwtClaim)
    (ha : ∀ c ∈ cl.aud, PlainCh c) (hs : ∀ c ∈ cl.sub, PlainCh c) :
    ∀ c ∈ claimChars cl, PlainCh c ∨ c = '"' := by
  intro c hc
  have hlitA : ∀ c ∈ "\x7b\"aud\":".data, PlainCh c ∨ c = '"' := by decide
  have hlitE : ∀ c ∈ ",\"exp\":".data, PlainCh c ∨ c = '"' := by decide
  have hlitS : ∀ c ∈ ",\"sub\":".data, PlainCh c ∨ c = '"' := by decide
  have hlitR : ∀ c ∈ "\x7d".data, PlainCh c ∨ c = '"' := by decide
  simp only [claimChars, jsonStr, escapeChars_plain ha, escapeChars_plain hs,
    List.mem_append, List.mem_cons, List.mem_singleton] at hc
  casesm* _ ∨ _
  all_goals
    first
      | (left; exact ha _ (by assumption))
      | (left; exact hs _ (by assumption))
      | (left; exact (numCh_plain (intDecimalChars_num cl.exp _ (by assumption))).1)
      | (rename_i h; subst h; decide)
      | simp_all

/-- Decoding the claim JSON recovers its audience and subject. -/
theorem decodeClaim_claimChars (cl : JwtClaim)
    (ha : ∀ c ∈ cl.aud, PlainCh c) (hs : ∀ c ∈ cl.sub, PlainCh c) :
    decodeClaim (claimChars cl) = some (cl.aud, cl.sub) := by
  have haq : ∀ c ∈ cl.aud, PlainCh c ∨ c = '"' := fun c h => .inl (ha c h)
  have hsq : ∀ c ∈ cl.sub, PlainCh c ∨ c = '"' := fun c h => .inl (hs c h)
  have hnc : ∀ c ∈ intDecimalChars cl.exp, c ≠ ',' :=
    fun c hc => (numCh_plain (intDecimalChars_num cl.exp c hc)).2
  have hsplit : ",\"sub\":".data = ',' :: "\"sub\":".data := by decide
  have hshape : claimChars cl =
      "\x7b\"aud\":".data ++ (jsonStr cl.aud ++ (",\"exp\":".data ++
        (intDecimalChars cl.exp ++ (',' :: ("\"sub\":".data ++
          (jsonStr cl.sub ++ "\x7d".data)))))) := by
    rw [claimChars, hsplit]
    simp [List.append_assoc]
  rw [hshape]
  simp only [decodeClaim, Option.bind_eq_bind, dropLit_append, Option.some_bind,
    parseJsonStr_jsonStr _ _ haq, parseJsonStr_jsonStr _ _ hsq,
    dropUntilComma_skip _ _ hnc, dropLit_self]
  simp

/-- Decoding the full signing request body recovers the claim's audience
and subject. -/
theorem decodeReqBody_reqBody (cl : JwtClaim)
    (ha : ∀ c ∈ cl.aud, PlainCh c) (hs : ∀ c ∈ cl.sub, PlainCh c) :
    decodeReqBody (reqBodyChars cl) = some (cl.aud, cl.sub) := by
  have hcq : ∀ c ∈ claimChars cl, PlainCh c ∨ c = '"' := claimChars_plainq cl ha hs
  have hshape : reqBodyChars cl =
      "\x7b\"payload\":".data ++ (jsonStr (claimChars cl) ++ "\x7d".data) := by
    simp [reqBodyChars, List.append_assoc]
  rw [hshape]
  simp only [decodeReqBody, Option.bind_eq_bind, dropLit_append, Option.some_bind,
    parseJsonStr_jsonStr _ _ hcq, dropLit_self]
  simp [decodeClaim_claimChars cl ha hs]

/-- `getToken` in the `Active` state is a pure cache hit. -/
theorem getToken_active (env : GetTokenEnv) (gat : GcpAuthToken) (s : Secret)
    (h : gat.token = some s) : getToken env gat = (.ok s, gat, []) := by
  simp [getToken, h]

/-- A successful `getToken` from the `Unissued` state stores the returned
secret, sets `expiration` to the pre-login timestamp plus the parsed TTL,
and performs exactly one sign and one login. -/
theorem getToken_none_ok (env : GetTokenEnv) (gat : GcpAuthToken) (s : Secret)
    (h0 : gat.token = none) (h1 : (getToken env gat).1 = .ok s) :
    ∃ ttl, s.ttlSecs = some ttl ∧
      getToken env gat =
        (.ok s, { gat with token := some s, expiration := env.now + ttl },
         [.sign, .login]) := by
  rcases hs : env.signResult with e | jwt
  · simp [getToken, h0, hs] at h1
  · rcases hl : env.login (gat.cfg.authPath ++ "/login")
        { role := gat.cfg.role, jwt := jwt } with e | resp
    · simp [getToken, h0, hs, hl] at h1
    · rcases ht : resp.ttlSecs with _ | ttl
      · simp [getToken, h0, hs, hl, Secret.tokenTTL, ht] at h1
      · have hres : resp = s := by
          simpa [getToken, h0, hs, hl, Secret.tokenTTL, ht] using h1
        subst hres
        exact ⟨ttl, ht, by simp [getToken, h0, hs, hl, Secret.tokenTTL, ht]⟩

/-- A failing `getToken` leaves the state unchanged. -/
theorem getToken_err_frame (env : GetTokenEnv) (gat : GcpAuthToken)
    (e : VaultErr) (h : (getToken env gat).1 = .error e) :
    (getToken env gat).2.1 = gat := by
  rcases h0 : gat.token with _ | s
  · rcases hs : env.signResult with e' | jwt
    · simp [getToken, h0, hs]
    · rcases hl : env.login (gat.cfg.authPath ++ "/login")
          { role := gat.cfg.role, jwt := jwt } with e' | resp
      · simp [getToken, h0, hs, hl]
      · rcases ht : resp.ttlSecs with _ | ttl
        · simp [getToken, h0, hs, hl, Secret.tokenTTL, ht]
        · simp [getToken, h0, hs, hl, Secret.tokenTTL, ht] at h
  · simp [getToken, h0] at h

/-- A failing `refresh` leaves the state unchanged. -/
theorem refresh_err_frame (env : RefreshEnv) (n : Int) (gat : GcpAuthToken)
    (e : VaultErr) (h : (refresh env n gat).1 = some e) :
    (refresh env n gat).2.1 = gat := by
  rcases h0 : gat.token with _ | s
  · simp [refresh, h0]
  · rcases hr : env.renew n with e' | resp
    · simp [refresh, h0, hr]
    · rcases ht : resp.ttlSecs with _ | ttl
      · simp [refresh, h0, hr, Secret.tokenTTL, ht]
      · simp [refresh, h0, hr, Secret.tokenTTL, ht] at h

/-- A failing `revoke` retains the token. -/
theorem revoke_err_frame (r : Except VaultErr Unit) (gat : GcpAuthToken)
    (e : VaultErr) (h : (revoke r gat).1 = some e) :
    (revoke r gat).2.1 = gat := by
  rcases h0 : gat.token with _ | s
  · simp [revoke, h0]
  · rcases hr : r with e' | u
    · simp [revoke, h0]
    · simp [revoke, h0, hr] at h

/-- The retry loop makes at most `remaining + 1` further attempts. -/
theorem backoffRetry_le (op : Nat → Except VaultErr String) (remaining : Nat) :
    ∀ start, (backoffRetry op start remaining).2 ≤ start + remaining + 1 := by
  induction remaining with
  | zero =>
    intro start
    rw [backoffRetry]
    rcases h : op start with e | s <;> simp [h]
  | succ r ih =>
    intro start
    rw [backoffRetry]
    rcases h : op start with e | s
    · simp only [h]
      calc (backoffRetry op (start + 1) r).2 ≤ start + 1 + r + 1 := ih (start + 1)
        _ ≤ start + (r + 1) + 1 := by omega
    · simp [h]

/-- A successful dynamic-mode facade call performed exactly one sign and
one login, and preserved the auth configuration. -/
theorem GetApiInterface_dyn_ok (env : GetTokenEnv) (vcc : VaultClientConnection)
    (cfg : GcpAuthConfig) (h : vcc.auth = some cfg)
    (hok : (GetApiInterface env vcc).1 = .ok ()) :
    (GetApiInterface env vcc).2.2 = [.sign, .login]
    ∧ (GetApiInterface env vcc).2.1.auth = some cfg := by
  rcases hg : getToken env (newGcpAuthToken cfg) with ⟨res, st, effs⟩
  rcases res with e | s
  · simp [GetApiInterface, h, hg] at hok
  · have hfst : (getToken env (newGcpAuthToken cfg)).1 = .ok s := by
      rw [hg]
    obtain ⟨ttl, -, heq⟩ := getToken_none_ok env (newGcpAuthToken cfg) s rfl hfst
    rw [heq] at hg
    obtain ⟨-, -, heff⟩ := Prod.mk.injEq .. ▸ hg
    simp [GetApiInterface, h, heq, hfst]

/-! ## Claim theorems -/

/-- C1: the claim (and the function's own doc comment) says a successful
self-lookup means *not revoked*; the source assigns
`revoked = (testErr == nil)`, so an Active manager whose lookup succeeds
is reported revoked (`true`) and one whose lookup fails is reported not
revoked (`false`) — the inverted mapping. An Unissued manager reports
revoked with no network call, as claimed. -/
theorem C1_isRevoked_inverted_mapping :
    (isRevoked { cloneResult := .ok (), lookup := fun _ => .ok () }
      { token := some { clientToken := "t", ttlSecs := some 300 },
        expiration := 1000, cfg := getConfig "r" }).1 = .ok true
    ∧ (isRevoked { cloneResult := .ok (), lookup := fun _ => .error (.base "denied") }
        { token := some { clientToken := "t", ttlSecs := some 300 },
          expiration := 1000, cfg := getConfig "r" }).1 = .ok false
    ∧ (∀ env : IsRevokedEnv, isRevoked env
        { token := none, expiration := 0, cfg := getConfig "r" } = (.ok true, [])) :=
  ⟨rfl, rfl, fun _ => rfl⟩

/-- C2 (counterexample): with the clock advancing from 0 (before the
renew call) to 10 (after it) and the server returning TTL 5, `refresh`
sets expiration to 15 — the post-call timestamp plus the TTL — and not
to 5, the pre-call timestamp plus the TTL that the claim requires. -/
theorem C2_refresh_precall_cex :
    (refresh
      { renew := fun _ => .ok { clientToken := "t", ttlSecs := some 5 },
        timePre := 0, timePost := 10 } 5
      { token := some { clientToken := "t", ttlSecs := some 300 },
        expiration := 100, cfg := getConfig "r" }).2.1.expiration = 15
    ∧ (refresh
      { renew := fun _ => .ok { clientToken := "t", ttlSecs := some 5 },
        timePre := 0, timePost := 10 } 5
      { token := some { clientToken := "t", ttlSecs := some 300 },
        expiration := 100, cfg := getConfig "r" }).2.1.expiration ≠ 0 + 5 :=
  ⟨rfl, by decide⟩

/-- C2 (amended): for a token-holding manager, `refresh(n)` renew-selfs
and sets the new expiration to the timestamp observed after the renew
call returns plus the server-returned TTL, regardless of the prior
expiration; with no token held it fails locally with the refresh error
and performs no network call. -/
theorem C2_refresh_postcall_expiration (env : RefreshEnv) (n : Int)
    (gat : GcpAuthToken) (s rs : Secret) (ttl : Int)
    (h0 : gat.token = some s) (hr : env.renew n = .ok rs)
    (ht : rs.ttlSecs = some ttl) :
    refresh env n gat =
      (none, { gat with expiration := env.timePost + ttl }, [.renewSelf])
    ∧ (∀ g : GcpAuthToken, g.token = none →
        refresh env n g = (some (.base "can't refresh nil token"), g, [])) := by
  constructor
  · simp [refresh, h0, hr, Secret.tokenTTL, ht]
  · intro g hg
    simp [refresh, hg]

theorem C2_refresh_postcall_expiration_witness :
    refresh
      { renew := fun _ => .ok { clientToken := "t", ttlSecs := some 7 },
        timePre := 0, timePost := 10 } 7
      { token := some { clientToken := "t", ttlSecs := some 300 },
        expiration := 100, cfg := getConfig "r" } =
      (none,
       { token := some { clientToken := "t", ttlSecs := some 300 },
         expiration := 17, cfg := getConfig "r" },
       [.renewSelf]) :=
  (C2_refresh_postcall_expiration
    { renew := fun _ => .ok { clientToken := "t", ttlSecs := some 7 },
      timePre := 0, timePost := 10 } 7
    { token := some { clientToken := "t", ttlSecs := some 300 },
      expiration := 100, cfg := getConfig "r" }
    { clientToken := "t", ttlSecs := some 300 }
    { clientToken := "t", ttlSecs := some 7 } 7 rfl rfl rfl).1

/-- C4: a successful `getToken` from `Unissued` sets the token, sets
`expiration` to the timestamp captured before the login request plus the
server-reported TTL, and performs one sign and one login; afterwards
`isExpired` is false at any time up to the expiration and true exactly
when the clock is strictly past it; an Unissued manager is always
expired (and `isExpired` is local — it takes no network environment). -/
theorem C4_getToken_login_expiration (env : GetTokenEnv) (gat : GcpAuthToken)
    (s : Secret) (ttl : Int)
    (h0 : gat.token = none)
    (hok : (getToken env gat).1 = .ok s)
    (httl : s.ttlSecs = some ttl) :
    getToken env gat =
      (.ok s, { gat with token := some s, expiration := env.now + ttl },
       [.sign, .login])
    ∧ (∀ t : Int, t ≤ env.now + ttl → isExpired t (getToken env gat).2.1 = false)
    ∧ (∀ t : Int, isExpired t (getToken env gat).2.1 = true ↔ env.now + ttl < t)
    ∧ (∀ g : GcpAuthToken, g.token = none → ∀ t : Int, isExpired t g = true) := by
  obtain ⟨ttl', hts, heq⟩ := getToken_none_ok env gat s h0 hok
  rw [httl] at hts
  obtain rfl : ttl' = ttl := by injection hts with h; exact h.symm
  refine ⟨heq, ?_, ?_, ?_⟩
  · intro t htle
    rw [heq]
    simp only [isExpired, decide_eq_false_iff_not, not_lt, gt_iff_lt]
    omega
  · intro t
    rw [heq]
    simp [isExpired]
  · intro g hg t
    simp [isExpired, hg]

theorem C4_getToken_login_expiration_witness :
    isExpired 1300 (getToken
      { signResult := .ok "jwt",
        login := fun _ _ => .ok { clientToken := "tok", ttlSecs := some 300 },
        now := 1000 } (newGcpAuthToken (getConfig "role"))).2.1 = false :=
  (C4_getToken_login_expiration
      { signResult := .ok "jwt",
        login := fun _ _ => .ok { clientToken := "tok", ttlSecs := some 300 },
        now := 1000 } (newGcpAuthToken (getConfig "role"))
      { clientToken := "tok", ttlSecs := some 300 } 300
      rfl rfl rfl).2.1 1300 (by decide)

/-- C5: an Active `getToken` is a pure cache hit (no sign, no login);
after a successful `getToken` from `Unissued`, a second call returns the
same token with no network calls, and the two calls together perform
exactly one login. -/
theorem C5_getToken_active_short_circuit (e1 e2 : GetTokenEnv)
    (gat : GcpAuthToken) (s : Secret)
    (h0 : gat.token = none) (h1 : (getToken e1 gat).1 = .ok s) :
    (∀ (env : GetTokenEnv) (g : GcpAuthToken) (t : Secret),
        g.token = some t → getToken env g = (.ok t, g, []))
    ∧ getToken e2 (getToken e1 gat).2.1 = (.ok s, (getToken e1 gat).2.1, [])
    ∧ countLogins ((getToken e1 gat).2.2
        ++ (getToken e2 (getToken e1 gat).2.1).2.2) = 1 := by
  obtain ⟨ttl, -, heq⟩ := getToken_none_ok e1 gat s h0 h1
  refine ⟨fun env g t ht => getToken_active env g t ht, ?_, ?_⟩
  · rw [heq]
    exact getToken_active e2 _ s rfl
  · rw [heq, getToken_active e2 _ s rfl]
    rfl

theorem C5_getToken_active_short_circuit_witness :
    countLogins ((getToken
        { signResult := .ok "jwt",
          login := fun _ _ => .ok { clientToken := "tok", ttlSecs := some 300 },
          now := 1000 } (newGcpAuthToken (getConfig "role"))).2.2
      ++ (getToken
        { signResult := .ok "jwt",
          login := fun _ _ => .ok { clientToken := "tok", ttlSecs := some 300 },
          now := 1000 }
        (getToken
          { signResult := .ok "jwt",
            login := fun _ _ => .ok { clientToken := "tok", ttlSecs := some 300 },
            now := 1000 } (newGcpAuthToken (getConfig "role"))).2.1).2.2) = 1 :=
  (C5_getToken_active_short_circuit
    { signResult := .ok "jwt",
      login := fun _ _ => .ok { clientToken := "tok", ttlSecs := some 300 },
      now := 1000 }
    { signResult := .ok "jwt",
      login := fun _ _ => .ok { clientToken := "tok", ttlSecs := some 300 },
      now := 1000 }
    (newGcpAuthToken (getConfig "role"))
    { clientToken := "tok", ttlSecs := some 300 } rfl rfl).2.2

/-- C7: failing `getToken`/`refresh`/`revoke` calls leave the manager
state unchanged; a successful `revoke` of a held token is the only
state-clearing transition — afterwards `isExpired` is true at every
time, and the next successful `getToken` goes through the full
sign-and-login path. -/
theorem C7_failure_preserves_state (gat : GcpAuthToken) (s : Secret)
    (h : gat.token = some s) :
    (∀ (env : GetTokenEnv) (g : GcpAuthToken) (e : VaultErr),
        (getToken env g).1 = .error e → (getToken env g).2.1 = g)
    ∧ (∀ (env : RefreshEnv) (n : Int) (g : GcpAuthToken) (e : VaultErr),
        (refresh env n g).1 = some e → (refresh env n g).2.1 = g)
    ∧ (∀ (r : Except VaultErr Unit) (g : GcpAuthToken) (e : VaultErr),
        (revoke r g).1 = some e → (revoke r g).2.1 = g)
    ∧ revoke (.ok ()) gat = (none, { gat with token := none }, [.revokeSelf])
    ∧ (∀ t : Int, isExpired t { gat with token := none } = true)
    ∧ (∀ (env : GetTokenEnv) (s' : Secret),
        (getToken env { gat with token := none }).1 = .ok s' →
        (getToken env { gat with token := none }).2.2 = [.sign, .login]) := by
  refine ⟨getToken_err_frame, refresh_err_frame, revoke_err_frame,
    by simp [revoke, h], fun t => by simp [isExpired], ?_⟩
  intro env s' hok
  obtain ⟨ttl, -, heq⟩ := getToken_none_ok env _ s' rfl hok
  rw [heq]

theorem C7_failure_preserves_state_witness :
    revoke (.ok ())
      { token := some { clientToken := "t", ttlSecs := some 300 },
        expiration := 1000, cfg := getConfig "r" } =
      (none, { token := none, expiration := 1000, cfg := getConfig "r" },
       [.revokeSelf]) :=
  (C7_failure_preserves_state
    { token := some { clientToken := "t", ttlSecs := some 300 },
      expiration := 1000, cfg := getConfig "r" }
    { clientToken := "t", ttlSecs := some 300 } rfl).2.2.2.1

/-- C9: supplying a static token at construction configures the client
with that token and no auth (so no token manager can ever be built), and
every `GetApiInterface` call in that mode returns the connection
unchanged, succeeds, and performs no network calls — hence it is
idempotent. -/
theorem C9_static_mode (env : GetTokenEnv) (tok role : String)
    (htok : tok ≠ "") :
    NewVaultClient tok role = { vcToken := some tok, auth := none }
    ∧ (∀ vcc : VaultClientConnection, vcc.auth = none →
        GetApiInterface env vcc = (.ok (), vcc, [])) := by
  constructor
  · simp [NewVaultClient, htok]
  · intro vcc h
    simp [GetApiInterface, h]

theorem C9_static_mode_witness :
    NewVaultClient "dev-token" "role" =
      { vcToken := some "dev-token", auth := none } :=
  (C9_static_mode
    { signResult := .ok "jwt", login := fun _ _ => .error (.base "unused"),
      now := 0 } "dev-token" "role" (by decide)).1

/-- C10: `revoke` on a manager with no token is a silent successful
no-op — no network call, no error, state unchanged — and hence calling
`revoke` again right after a successful revoke also succeeds as a no-op. -/
theorem C10_revoke_unissued_noop (gat g : GcpAuthToken) (s : Secret)
    (r r2 : Except VaultErr Unit)
    (h0 : gat.token = none) (hg : g.token = some s) :
    revoke r gat = (none, gat, [])
    ∧ (revoke (.ok ()) g).1 = none
    ∧ revoke r2 (revoke (.ok ()) g).2.1 = (none, (revoke (.ok ()) g).2.1, []) := by
  refine ⟨by simp [revoke, h0], by simp [revoke, hg], ?_⟩
  simp [revoke, hg]

theorem C10_revoke_unissued_noop_witness :
    revoke (.error (.base "server down"))
      { token := none, expiration := 0, cfg := getConfig "r" } =
      (none, { token := none, expiration := 0, cfg := getConfig "r" }, []) :=
  (C10_revoke_unissued_noop
    { token := none, expiration := 0, cfg := getConfig "r" }
    { token := some { clientToken := "t", ttlSecs := some 300 },
      expiration := 1000, cfg := getConfig "r" }
    { clientToken := "t", ttlSecs := some 300 }
    (.error (.base "server down")) (.ok ()) rfl rfl).1

/-- C3 (counterexample): in dynamic mode with a login-succeeding
environment, two consecutive facade calls perform two logins, not one —
`GetApiInterface` builds a fresh token provider on every call instead of
reusing an existing manager, so the claimed cross-call effectiveness of
the Active-state short-circuit does not hold. -/
theorem C3_fresh_manager_cex :
    countLogins ((GetApiInterface
        { signResult := .ok "jwt",
          login := fun _ _ => .ok { clientToken := "tok", ttlSecs := some 300 },
          now := 0 } (NewVaultClient "" "r")).2.2
      ++ (GetApiInterface
        { signResult := .ok "jwt",
          login := fun _ _ => .ok { clientToken := "tok", ttlSecs := some 300 },
          now := 0 }
        (GetApiInterface
          { signResult := .ok "jwt",
            login := fun _ _ => .ok { clientToken := "tok", ttlSecs := some 300 },
            now := 0 } (NewVaultClient "" "r")).2.1).2.2) = 2
    ∧ countLogins ((GetApiInterface
        { signResult := .ok "jwt",
          login := fun _ _ => .ok { clientToken := "tok", ttlSecs := some 300 },
          now := 0 } (NewVaultClient "" "r")).2.2
      ++ (GetApiInterface
        { signResult := .ok "jwt",
          login := fun _ _ => .ok { clientToken := "tok", ttlSecs := some 300 },
          now := 0 }
        (GetApiInterface
          { signResult := .ok "jwt",
            login := fun _ _ => .ok { clientToken := "tok", ttlSecs := some 300 },
            now := 0 } (NewVaultClient "" "r")).2.1).2.2) ≠ 1 :=
  ⟨rfl, by decide⟩

/-- C3 (amended): in dynamic mode every `GetApiInterface` call constructs
a fresh token manager (the manager is a local of the call, never stored),
so the Active-state short-circuit is not effective across facade calls:
each successful call performs its own sign and login, and two consecutive
successful calls perform two logins. -/
theorem C3_fresh_manager_each_call (env1 env2 : GetTokenEnv)
    (vcc : VaultClientConnection) (cfg : GcpAuthConfig)
    (h : vcc.auth = some cfg)
    (h1 : (GetApiInterface env1 vcc).1 = .ok ())
    (h2 : (GetApiInterface env2 (GetApiInterface env1 vcc).2.1).1 = .ok ()) :
    (GetApiInterface env1 vcc).2.2 = [.sign, .login]
    ∧ (GetApiInterface env2 (GetApiInterface env1 vcc).2.1).2.2 = [.sign, .login]
    ∧ countLogins ((GetApiInterface env1 vcc).2.2
        ++ (GetApiInterface env2 (GetApiInterface env1 vcc).2.1).2.2) = 2 := by
  obtain ⟨he1, ha1⟩ := GetApiInterface_dyn_ok env1 vcc cfg h h1
  obtain ⟨he2, -⟩ := GetApiInterface_dyn_ok env2 _ cfg ha1 h2
  refine ⟨he1, he2, ?_⟩
  rw [he1, he2]
  rfl

theorem C3_fresh_manager_each_call_witness :
    (GetApiInterface
      { signResult := .ok "jwt",
        login := fun _ _ => .ok { clientToken := "tok", ttlSecs := some 300 },
        now := 0 } (NewVaultClient "" "r")).2.2 = [.sign, .login] :=
  (C3_fresh_manager_each_call
    { signResult := .ok "jwt",
      login := fun _ _ => .ok { clientToken := "tok", ttlSecs := some 300 },
      now := 0 }
    { signResult := .ok "jwt",
      login := fun _ _ => .ok { clientToken := "tok", ttlSecs := some 300 },
      now := 0 }
    (NewVaultClient "" "r") (getConfig "r") rfl rfl rfl).1

/-- C6: the signing retry loop with cap `N` makes at most `N + 1` total
attempts; each attempt runs `createSignedJwt` afresh, whose claim expiry
is the attempt's own timestamp plus 60 seconds; an operation failing 3
times then succeeding, under cap 5, yields success after 4 attempts; an
always-failing operation under cap 2 yields the exhaustion error wrapping
the last underlying cause after exactly 3 attempts. -/
theorem C6_signed_jwt_retry (N : Nat) (op : Nat → Except VaultErr String)
    (s : String) (e : Nat → VaultErr) (role saEmail : List Char) (t : Int) :
    (createSignedJwtWithRetry op N).2 ≤ N + 1
    ∧ (∀ envS : SignEnv, envS.saInfo = .ok saEmail →
        createSignedJwt envS role t
          = envS.signer (reqBodyChars (buildClaim role saEmail t)))
    ∧ (buildClaim role saEmail t).exp = t + 60
    ∧ ((∀ k, k < 3 → op k = .error (e k)) → op 3 = .ok s →
        createSignedJwtWithRetry op 5 = (.ok s, 4))
    ∧ ((∀ k, op k = .error (e k)) →
        createSignedJwtWithRetry op 2 =
          (.error (.wrapped "unable to sign JWT after 2 retries" (e 2)), 3)) := by
  refine ⟨?_, ?_, ?_, ?_, ?_⟩
  · have hb := backoffRetry_le op N 0
    rcases hbr : backoffRetry op 0 N with ⟨res, n⟩
    rw [hbr] at hb
    rcases res with e' | s' <;> simp [createSignedJwtWithRetry, hbr] <;> omega
  · intro envS hsa
    simp [createSignedJwt, hsa]
  · simp [buildClaim, cJwtTokenTimeoutMins]
  · intro h3 hok
    have h0 := h3 0 (by omega)
    have h1 := h3 1 (by omega)
    have h2 := h3 2 (by omega)
    simp [createSignedJwtWithRetry, backoffRetry, h0, h1, h2, hok]
  · intro hall
    simp [createSignedJwtWithRetry, backoffRetry, hall 0, hall 1, hall 2]
    rfl

theorem C6_signed_jwt_retry_witness :
    createSignedJwtWithRetry
      (fun k => if k < 3 then .error (.base "boom") else .ok "signed") 5 =
      (.ok "signed", 4) :=
  (C6_signed_jwt_retry 5
    (fun k => if k < 3 then .error (.base "boom") else .ok "signed")
    "signed" (fun _ => .base "boom") "r".data "sa".data 0).2.2.2.1
    (fun k hk => by simp [hk]) rfl

/-- C8: each signing attempt builds a claim with audience
`"vault/" + role`, subject the resolved identity, and expiry the attempt
time plus 60 seconds; the claim JSON is JSON-encoded a second time as a
string and POSTed as `{"payload": <json-string of the claim JSON>}`, and
decoding that body recovers the audience and subject. -/
theorem C8_claim_encoding_roundtrip (role saEmail : List Char) (t : Int)
    (signer : List Char → Except VaultErr String)
    (hr : ∀ c ∈ role, PlainCh c) (he : ∀ c ∈ saEmail, PlainCh c) :
    (buildClaim role saEmail t).aud = "vault/".data ++ role
    ∧ (buildClaim role saEmail t).sub = saEmail
    ∧ (buildClaim role saEmail t).exp = t + 60
    ∧ createSignedJwt { saInfo := .ok saEmail, signer := signer } role t
        = signer (reqBodyChars (buildClaim role saEmail t))
    ∧ decodeReqBody (reqBodyChars (buildClaim role saEmail t))
        = some ("vault/".data ++ role, saEmail) := by
  have hvault : ∀ c ∈ "vault/".data, PlainCh c := by decide
  have haud : ∀ c ∈ "vault/".data ++ role, PlainCh c := by
    intro c hc
    rcases List.mem_append.mp hc with h | h
    · exact hvault c h
    · exact hr c h
  exact ⟨rfl, rfl, by simp [buildClaim, cJwtTokenTimeoutMins], rfl,
    decodeReqBody_reqBody (buildClaim role saEmail t) haud he⟩

theorem C8_claim_encoding_roundtrip_witness :
    decodeReqBody (reqBodyChars (buildClaim "my-role".data
      "sa@p.iam.gserviceaccount.com".data 1700000000))
      = some ("vault/".data ++ "my-role".data,
              "sa@p.iam.gserviceaccount.com".data) :=
  (C8_claim_encoding_roundtrip "my-role".data
    "sa@p.iam.gserviceaccount.com".data 1700000000
    (fun _ => .ok "signed") (by decide) (by decide)).2.2.2.2

end VaultToken
